import Mathlib

/-!
Verification development for the tori inventory pipeline.

The Python source is embedded shallowly:
* `src/vision.py` — `ImageAnalyzer.compute_iou` and `ImageAnalyzer.apply_nms`
  become pure functions over rationals (`compute_iou`, `apply_nms`);
* `src/neo4j_client.py` — `Neo4jClient.create_item` becomes a state
  transformer over an explicit graph state, `Neo4jClient.cosine_similarity`
  and `Neo4jClient.search_similar_items` become pure functions (the square
  root used by `np.linalg.norm` is abstracted as a parameter);
* `src/app.py` — the per-detection storage loop of `upload_file`, the
  receipt loop of `upload_receipt` and the `item_data` dictionaries they
  build become explicit folds.

Numbers are modelled by `ℚ` (the arithmetic in the source is simple enough
that float rounding plays no role in any property below), Python dictionary
keys that a caller may omit are modelled by `Option` (with `none` = key
absent, so that `KeyError` is observable), and Neo4j `datetime()` is an
opaque `String` parameter `now`.
-/

/-! ### Geometry: `ImageAnalyzer.compute_iou` (src/vision.py lines 89-108)

A bounding box carries `x`, `y`, `width`, `height`; detections carry the
box fields inline (the Python code reads `box["x"]` etc. directly off the
detection dictionary). -/

structure Box where
  x : ℚ
  y : ℚ
  width : ℚ
  height : ℚ
deriving DecidableEq, Repr

/-- `ImageAnalyzer.compute_iou(box1, box2)`: intersection rectangle from
`max` of the mins and `min` of the maxes, intersection area clamped at 0,
union = areaA + areaB − intersection, quotient guarded by `union > 0`. -/
def compute_iou (box1 box2 : Box) : ℚ :=
  let x1 := max box1.x box2.x
  let y1 := max box1.y box2.y
  let x2 := min (box1.x + box1.width) (box2.x + box2.width)
  let y2 := min (box1.y + box1.height) (box2.y + box2.height)
  let intersection := max 0 (x2 - x1) * max 0 (y2 - y1)
  let box1_area := box1.width * box1.height
  let box2_area := box2.width * box2.height
  let union := box1_area + box2_area - intersection
  if 0 < union then intersection / union else 0

/-- The union term of `compute_iou`, exposed so that the degenerate-union
clause of the spec can be stated. -/
def iou_union (box1 box2 : Box) : ℚ :=
  let x1 := max box1.x box2.x
  let y1 := max box1.y box2.y
  let x2 := min (box1.x + box1.width) (box2.x + box2.width)
  let y2 := min (box1.y + box1.height) (box2.y + box2.height)
  let intersection := max 0 (x2 - x1) * max 0 (y2 - y1)
  box1.width * box1.height + box2.width * box2.height - intersection

/-- A box is non-degenerate when it has positive width and height. -/
def Box.nondegenerate (b : Box) : Prop := 0 < b.width ∧ 0 < b.height

instance (b : Box) : Decidable b.nondegenerate := by
  unfold Box.nondegenerate; infer_instance

/-- The two boxes fail to overlap on the x-axis or on the y-axis. -/
def Box.noOverlap (a b : Box) : Prop :=
  a.x + a.width ≤ b.x ∨ b.x + b.width ≤ a.x ∨
  a.y + a.height ≤ b.y ∨ b.y + b.height ≤ a.y

instance (a b : Box) : Decidable (a.noOverlap b) := by
  unfold Box.noOverlap; infer_instance

/-! ### Detections and `ImageAnalyzer.apply_nms` (src/vision.py lines 110-130) -/

structure Detection where
  classLabel : String
  confidence : ℚ
  box : Box
deriving DecidableEq, Repr

/-- IoU of two detections, reading the box fields off the detection
(the Python code passes the detection dictionaries straight to
`compute_iou`). -/
def Detection.iou (a b : Detection) : ℚ := compute_iou a.box b.box

/-- The `while sorted_objects:` loop of `apply_nms`: pop the head, keep it,
drop from the pool every remaining detection of the same class whose IoU
with the kept one is ≥ the threshold. -/
def nmsLoop (iou_threshold : ℚ) : List Detection → List Detection
  | [] => []
  | current :: rest =>
      current ::
        nmsLoop iou_threshold
          (rest.filter fun obj =>
            obj.classLabel ≠ current.classLabel ∨ current.iou obj < iou_threshold)
termination_by l => l.length
decreasing_by
  simp only [List.length_cons]
  exact Nat.lt_succ_of_le (List.length_filter_le _ _)

/-- `ImageAnalyzer.apply_nms(objects, iou_threshold=0.5)`: Python's
`sorted(objects, key=confidence, reverse=True)` is a stable descending
sort, i.e. `insertionSort` with the relation `b.confidence ≤ a.confidence`,
followed by the greedy suppression loop. -/
def apply_nms (objects : List Detection) (iou_threshold : ℚ := 1/2) : List Detection :=
  nmsLoop iou_threshold
    (List.insertionSort (fun a b => b.confidence ≤ a.confidence) objects)

/-! ### Similarity: `Neo4jClient.cosine_similarity` (src/neo4j_client.py lines 77-82)

`np.dot` and `np.linalg.norm` over a rational carrier; the square root
inside `np.linalg.norm` is abstracted as a parameter `sqrt` (the real
square root satisfies `sqrt 0 = 0`, which is the only property any theorem
below assumes).  Python's `if norm1 and norm2` is truthiness of the two
norms, i.e. both are non-zero. -/

/-- `np.dot` on two equal-length vectors (elementwise product, summed). -/
def dotProduct (v1 v2 : List ℚ) : ℚ := (List.zipWith (· * ·) v1 v2).sum

/-- The squared Euclidean norm; `np.linalg.norm v = sqrt (normSq v)`. -/
def normSq (v : List ℚ) : ℚ := dotProduct v v

/-- `Neo4jClient.cosine_similarity(vec1, vec2)`:
`dot / (norm1 * norm2) if norm1 and norm2 else 0`. -/
def cosine_similarity (sqrt : ℚ → ℚ) (vec1 vec2 : List ℚ) : ℚ :=
  let dot_product := dotProduct vec1 vec2
  let norm1 := sqrt (normSq vec1)
  let norm2 := sqrt (normSq vec2)
  if norm1 ≠ 0 ∧ norm2 ≠ 0 then dot_product / (norm1 * norm2) else 0

/-! ### Graph store: `Neo4jClient.create_item` (src/neo4j_client.py lines 24-75)

The Neo4j database is an explicit state: lists of `Room` nodes,
`InventoryItem` nodes and `LOCATED_IN` edges, each keyed by the natural key
the Cypher `MERGE` clauses use.  The two `session.run` calls become two
state updates; evaluating a query's parameter dictionary looks up keys of
the Python `item_data` dict, so a missing key raises `KeyError` *before*
the corresponding `session.run` executes.  Keys a caller may omit are
`Option` fields of `ItemData` with `none` = key absent. -/

structure RoomNode where
  name : String
  embedding : Option (List ℚ)
deriving DecidableEq, Repr

structure ItemNode where
  item_id : String
  name : String
  sku : String
  price : ℚ
  quantity : Int
  confidence : ℚ
  embedding : Option (List ℚ)
  description : String
  add_date : String
  purchase_date : Option String
  updated_at : String
deriving DecidableEq, Repr

structure LocatedInEdge where
  item_id : String
  room_name : String
  since : Option String
  last_updated : Option String
deriving DecidableEq, Repr

structure GraphState where
  rooms : List RoomNode
  items : List ItemNode
  edges : List LocatedInEdge
deriving DecidableEq, Repr

/-- The empty database. -/
def GraphState.empty : GraphState := ⟨[], [], []⟩

def findRoom (g : GraphState) (name : String) : Option RoomNode :=
  g.rooms.find? (fun r => r.name == name)

def findItem (g : GraphState) (id : String) : Option ItemNode :=
  g.items.find? (fun i => i.item_id == id)

def findEdge (g : GraphState) (id room : String) : Option LocatedInEdge :=
  g.edges.find? (fun e => e.item_id == id && e.room_name == room)

/-- `MERGE (r:Room {name: $room}) SET r.embedding = $room_embedding`:
match-or-create by `name`, then unconditionally overwrite `embedding`
(the `SET` is not an `ON CREATE SET`, so it fires on match as well). -/
def mergeRoom (g : GraphState) (name : String) (emb : List ℚ) : GraphState :=
  if g.rooms.any (fun r => r.name == name) then
    { g with rooms := g.rooms.map fun r =>
        if r.name == name then { r with embedding := some emb } else r }
  else
    { g with rooms := g.rooms ++ [⟨name, some emb⟩] }

/-- `MERGE (i:InventoryItem {item_id: $item_id}) SET i.name = ..., i.sku = ...,
..., i.updated_at = datetime()`: match-or-create by `item_id`, then
unconditionally overwrite every listed property — including `quantity`. -/
def mergeItem (g : GraphState) (node : ItemNode) : GraphState :=
  if g.items.any (fun i => i.item_id == node.item_id) then
    { g with items := g.items.map fun i =>
        if i.item_id == node.item_id then node else i }
  else
    { g with items := g.items ++ [node] }

/-- `MERGE (i)-[rel:LOCATED_IN]->(r) SET rel.last_updated = datetime()`:
match-or-create the edge, then set `last_updated` on both branches; no
other edge attribute is touched (in particular no `since`). -/
def mergeEdge (g : GraphState) (id room now : String) : GraphState :=
  if g.edges.any (fun e => e.item_id == id && e.room_name == room) then
    { g with edges := g.edges.map fun e =>
        if e.item_id == id && e.room_name == room then
          { e with last_updated := some now } else e }
  else
    { g with edges := g.edges ++ [⟨id, room, none, some now⟩] }

/-- The `item_data` dictionary passed to `create_item`.  Keys that the two
callers in `src/app.py` always supply are plain fields; keys a caller may
omit (`room_embedding`, `confidence`, `embedding`, `purchase_date`,
`description`) are `Option` fields with `none` = key absent.
`purchase_date` additionally distinguishes a present-but-`None` value
(`some none`, the photo path) from a present date (`some (some d)`). -/
structure ItemData where
  item_id : String
  name : String
  sku : String
  price : ℚ
  quantity : Int
  room : String
  add_date : String
  room_embedding : Option (List ℚ)
  confidence : Option ℚ
  embedding : Option (List ℚ)
  purchase_date : Option (Option String)
  description : Option String
deriving DecidableEq, Repr

/-- Which of the two `session.run` calls of `create_item` have executed. -/
inductive WriteOp where
  | roomWrite : WriteOp
  | itemWrite : WriteOp
deriving DecidableEq, Repr

/-- Result of one `create_item` call: the database state after the call,
the writes that executed, and the missing dictionary key when the call
raised `KeyError` (`none` = returned normally). -/
structure CreateOutcome where
  state : GraphState
  writes : List WriteOp
  keyError : Option String
deriving DecidableEq, Repr

/-- `Neo4jClient.create_item(item_data)` (src/neo4j_client.py lines 24-75).
Guard: `if not self.driver: return` (no write, no error).  Then the room
query's parameter dict reads `item_data["room"]` and
`item_data["room_embedding"]` — a missing `room_embedding` key raises
before any write.  Then the item query's parameter dict reads, in order,
`item_id`, `name`, `sku`, `price`, `quantity`, `confidence`, `embedding`,
`description` (via `.get`, default `""`), `room`, `add_date`,
`purchase_date` — a key missing there raises after the room write but
before the item/edge write.  `datetime()` is the opaque `now`. -/
def create_item (driver : Bool) (item_data : ItemData) (now : String)
    (g : GraphState) : CreateOutcome :=
  if !driver then ⟨g, [], none⟩
  else
    match item_data.room_embedding with
    | none => ⟨g, [], some "room_embedding"⟩
    | some remb =>
      let g1 := mergeRoom g item_data.room remb
      match item_data.confidence with
      | none => ⟨g1, [.roomWrite], some "confidence"⟩
      | some conf =>
        match item_data.embedding with
        | none => ⟨g1, [.roomWrite], some "embedding"⟩
        | some emb =>
          match item_data.purchase_date with
          | none => ⟨g1, [.roomWrite], some "purchase_date"⟩
          | some pd =>
            let g2 := mergeItem g1
              { item_id := item_data.item_id
                name := item_data.name
                sku := item_data.sku
                price := item_data.price
                quantity := item_data.quantity
                confidence := conf
                embedding := some emb
                description := item_data.description.getD ""
                add_date := item_data.add_date
                purchase_date := pd
                updated_at := now }
            let g3 := mergeEdge g2 item_data.item_id item_data.room now
            ⟨g3, [.roomWrite, .itemWrite], none⟩

/-! ### Search: `Neo4jClient.search_similar_items` (src/neo4j_client.py lines 84-137)

The Cypher `MATCH (i:InventoryItem)-[rel:LOCATED_IN]->(r:Room) WHERE
i.embedding IS NOT NULL RETURN ...` produces one record per item/room edge;
a record is a `DbRow`.  The function is modelled from the record list on:
the query embedding comes from the external embedding provider and is a
parameter, as is the abstracted square root used inside
`cosine_similarity`. -/

structure DbRow where
  name : String
  description : Option String
  price : Option ℚ
  quantity : Option Int
  room : String
  embedding : Option (List ℚ)
  room_embedding : Option (List ℚ)
deriving DecidableEq, Repr

structure RankedItem where
  name : String
  description : String
  price : Option ℚ
  quantity : Option Int
  room : String
  similarity : ℚ
deriving DecidableEq, Repr

/-- The similarity computed for one record:
`item_similarity = cosine_similarity(q, emb) if item.get("embedding") else 0`
(truthiness: a missing, `None` or empty list gives 0), likewise for
`room_similarity`, blended as `0.7 * item + 0.3 * room`. -/
def rowSimilarity (sqrt : ℚ → ℚ) (query_embedding : List ℚ) (row : DbRow) : ℚ :=
  let item_similarity :=
    match row.embedding with
    | some e => if e ≠ [] then cosine_similarity sqrt query_embedding e else 0
    | none => 0
  let room_similarity :=
    match row.room_embedding with
    | some e => if e ≠ [] then cosine_similarity sqrt query_embedding e else 0
    | none => 0
  7/10 * item_similarity + 3/10 * room_similarity

/-- `Neo4jClient.search_similar_items(query_text, limit=5)`, from the point
where the records are in hand: annotate each record with its similarity,
stable-sort descending on similarity (`items.sort(key=..., reverse=True)`),
truncate to `limit` (`items[:limit]`), keep only `similarity > 0.2`, and
project the output fields (`description` via `.get` with default `""`). -/
def search_similar_items (sqrt : ℚ → ℚ) (query_embedding : List ℚ)
    (rows : List DbRow) (limit : Nat := 5) : List RankedItem :=
  let scored := rows.map fun r => (r, rowSimilarity sqrt query_embedding r)
  let sorted := List.insertionSort (fun a b => b.2 ≤ a.2) scored
  ((sorted.take limit).filter fun p => 1/5 < p.2).map fun p =>
    { name := p.1.name
      description := p.1.description.getD ""
      price := p.1.price
      quantity := p.1.quantity
      room := p.1.room
      similarity := p.2 }

/-! ### App layer (src/app.py)

`upload_file` (lines 126-145) builds one `item_data` dict per detected
object and calls `create_item` with **no** per-detection `try/except`: an
exception from a graph write propagates to the route-level handler and the
remaining detections are never attempted.  `upload_receipt` (lines 253-274)
builds a smaller dict (no `room_embedding`, `confidence` or `embedding`
key) and wraps each `create_item` call in `try/except`.  The possibility
that a `session.run` network call raises is modelled by parametrising the
loops over `runCreate : ItemData → Except String Unit`. -/

/-- `DEFAULT_PRICES` (src/app.py lines 33-52). -/
def DEFAULT_PRICES : List (String × ℚ) :=
  [("sofa", 499.99), ("couch", 499.99), ("chair", 149.99), ("armchair", 199.99),
   ("dining chair", 89.99), ("table", 299.99), ("desk", 249.99), ("bed", 699.99),
   ("dresser", 399.99), ("nightstand", 129.99), ("bookshelf", 179.99),
   ("cabinet", 299.99), ("potted plant", 39.99), ("lamp", 79.99), ("rug", 199.99),
   ("mirror", 129.99), ("clock", 49.99), ("vase", 29.99)]

/-- One element of `objects_with_embeddings` as produced by
`ImageAnalyzer.get_object_embeddings` (classLabel, confidence, embedding;
no `description` key, so the loop's `obj.get("description", "")` always
yields `""`). -/
structure DetectedObject where
  classLabel : String
  confidence : ℚ
  embedding : List ℚ
deriving DecidableEq, Repr

/-- The `item_data` dict built for one detection in `upload_file`
(src/app.py lines 129-143): default price `10.00`, quantity `1`,
`item_id = f"{label}_{room}_{timestamp}"`, `purchase_date = None`
(key present, value null). -/
def mkDetectionItemData (obj : DetectedObject) (room_type : String)
    (room_embedding : List ℚ) (timestamp add_date : String) : ItemData :=
  { name := obj.classLabel
    room := room_type
    price := (DEFAULT_PRICES.lookup obj.classLabel.toLower).getD 10
    quantity := 1
    confidence := some obj.confidence
    embedding := some obj.embedding
    description := some ""
    item_id := obj.classLabel ++ "_" ++ room_type ++ "_" ++ timestamp
    sku := "SKU_" ++ obj.classLabel ++ "_" ++ room_type
    add_date := add_date
    purchase_date := some none
    room_embedding := some room_embedding }

/-- The `for obj in objects_with_embeddings:` loop of `upload_file`
(src/app.py lines 127-145).  There is no `try/except` inside the loop, so
the first raising `create_item` call aborts it; the result records, in
order, the `item_data` dicts for which `create_item` was actually invoked,
and the propagated error if any. -/
def storeDetectionsLoop (runCreate : ItemData → Except String Unit)
    (room_type : String) (room_embedding : List ℚ) (timestamp add_date : String) :
    List DetectedObject → List ItemData × Option String
  | [] => ([], none)
  | obj :: rest =>
    let d := mkDetectionItemData obj room_type room_embedding timestamp add_date
    match runCreate d with
    | .ok _ =>
        let out := storeDetectionsLoop runCreate room_type room_embedding
          timestamp add_date rest
        (d :: out.1, out.2)
    | .error e => ([d], some e)

/-- The fields of one QuickBooks result consumed by `upload_receipt`
(each read with `.get` and a default in the source; absence is already
folded into the defaults by `add_receipt_item`, so plain fields model the
values after defaulting). -/
structure QbResult where
  item_id : String
  name : String
  sku : String
  price : ℚ
  quantity : Int
deriving DecidableEq, Repr

/-- The `neo4j_item_data` dict built for one receipt line item in
`upload_receipt` (src/app.py lines 261-270): `room` is the literal
`"unknown"`, `purchase_date` is present, and the keys `room_embedding`,
`confidence`, `embedding` and `description` are **absent**. -/
def mkReceiptItemData (qb : QbResult) (add_date purchase_date : String) : ItemData :=
  { item_id := qb.item_id
    name := qb.name
    sku := qb.sku
    price := qb.price
    quantity := qb.quantity
    add_date := add_date
    purchase_date := some (some purchase_date)
    room := "unknown"
    room_embedding := none
    confidence := none
    embedding := none
    description := none }

/-- The `for item in receipt_data.get("items", []):` loop of
`upload_receipt`, restricted to its graph writes (src/app.py lines
271-274): each `create_item` call sits in its own `try/except`, so every
line item is attempted regardless of earlier failures; the result records
the `item_data` dicts passed to `create_item`. -/
def receiptLoop (runCreate : ItemData → Except String Unit)
    (add_date : String) : List (QbResult × String) → List ItemData
  | [] => []
  | (qb, purchase_date) :: rest =>
    let d := mkReceiptItemData qb add_date purchase_date
    let _ := runCreate d
    d :: receiptLoop runCreate add_date rest

/-! ## Claims -/

/-- C8: `compute_iou` is symmetric; equals `1` on any non-degenerate box
against itself; equals `0` whenever the boxes do not overlap on either
axis; and equals `0` when the union area is `0`. -/
theorem compute_iou_spec (a b : Box) :
    compute_iou a b = compute_iou b a ∧
    (a.nondegenerate → compute_iou a a = 1) ∧
    (a.noOverlap b → compute_iou a b = 0) ∧
    (iou_union a b = 0 → compute_iou a b = 0) := by
  refine ⟨?_, ?_, ?_, ?_⟩
  · simp only [compute_iou]
    rw [max_comm a.x b.x, max_comm a.y b.y,
        min_comm (a.x + a.width) (b.x + b.width),
        min_comm (a.y + a.height) (b.y + b.height),
        add_comm (a.width * a.height) (b.width * b.height)]
  · rintro ⟨hw, hh⟩
    have harea : 0 < a.width * a.height := mul_pos hw hh
    simp only [compute_iou, max_self, min_self]
    rw [show a.x + a.width - a.x = a.width by ring,
        show a.y + a.height - a.y = a.height by ring,
        max_eq_right hw.le, max_eq_right hh.le,
        show a.width * a.height + a.width * a.height - a.width * a.height
          = a.width * a.height by ring]
    rw [if_pos harea]
    exact div_self harea.ne'
  · intro h
    have hinter :
        max 0 (min (a.x + a.width) (b.x + b.width) - max a.x b.x) *
          max 0 (min (a.y + a.height) (b.y + b.height) - max a.y b.y) = 0 := by
      rcases h with h | h | h | h
      · have hx : min (a.x + a.width) (b.x + b.width) - max a.x b.x ≤ 0 := by
          have h1 : min (a.x + a.width) (b.x + b.width) ≤ a.x + a.width :=
            min_le_left _ _
          have h2 : b.x ≤ max a.x b.x := le_max_right _ _
          linarith
        rw [max_eq_left hx, zero_mul]
      · have hx : min (a.x + a.width) (b.x + b.width) - max a.x b.x ≤ 0 := by
          have h1 : min (a.x + a.width) (b.x + b.width) ≤ b.x + b.width :=
            min_le_right _ _
          have h2 : a.x ≤ max a.x b.x := le_max_left _ _
          linarith
        rw [max_eq_left hx, zero_mul]
      · have hy : min (a.y + a.height) (b.y + b.height) - max a.y b.y ≤ 0 := by
          have h1 : min (a.y + a.height) (b.y + b.height) ≤ a.y + a.height :=
            min_le_left _ _
          have h2 : b.y ≤ max a.y b.y := le_max_right _ _
          linarith
        rw [max_eq_left hy, mul_zero]
      · have hy : min (a.y + a.height) (b.y + b.height) - max a.y b.y ≤ 0 := by
          have h1 : min (a.y + a.height) (b.y + b.height) ≤ b.y + b.height :=
            min_le_right _ _
          have h2 : a.y ≤ max a.y b.y := le_max_left _ _
          linarith
        rw [max_eq_left hy, mul_zero]
    simp only [compute_iou]
    rw [hinter]
    split
    · exact zero_div _
    · rfl
  · intro h
    simp only [iou_union] at h
    simp only [compute_iou]
    rw [h, if_neg (lt_irrefl 0)]

/-- C8 witness: the unit box is non-degenerate and does not overlap the
degenerate box `⟨5, 0, -1, 1⟩`, and their union area is `0`. -/
theorem compute_iou_spec_witness :
    compute_iou ⟨0, 0, 1, 1⟩ ⟨5, 0, -1, 1⟩ = compute_iou ⟨5, 0, -1, 1⟩ ⟨0, 0, 1, 1⟩ ∧
    compute_iou ⟨0, 0, 1, 1⟩ ⟨0, 0, 1, 1⟩ = 1 ∧
    compute_iou ⟨0, 0, 1, 1⟩ ⟨5, 0, -1, 1⟩ = 0 := by
  obtain ⟨h1, h2, h3, _⟩ := compute_iou_spec ⟨0, 0, 1, 1⟩ ⟨5, 0, -1, 1⟩
  exact ⟨h1, h2 (by constructor <;> norm_num), h3 (Or.inl (by norm_num))⟩

/-- C9: `cosine_similarity` returns `0` whenever either vector has zero
norm (for any square root with `sqrt 0 = 0`), and the division by the
product of norms is only taken when both norms are non-zero: every result
is either `0` or the quotient taken under that guard. -/
theorem cosine_similarity_spec (sqrt : ℚ → ℚ) (hsqrt : sqrt 0 = 0)
    (vec1 vec2 : List ℚ) :
    ((normSq vec1 = 0 ∨ normSq vec2 = 0) → cosine_similarity sqrt vec1 vec2 = 0) ∧
    (cosine_similarity sqrt vec1 vec2 = 0 ∨
      (sqrt (normSq vec1) ≠ 0 ∧ sqrt (normSq vec2) ≠ 0 ∧
        cosine_similarity sqrt vec1 vec2 =
          dotProduct vec1 vec2 / (sqrt (normSq vec1) * sqrt (normSq vec2)))) := by
  constructor
  · rintro (h | h) <;> simp [cosine_similarity, h, hsqrt]
  · by_cases hg : sqrt (normSq vec1) ≠ 0 ∧ sqrt (normSq vec2) ≠ 0
    · exact Or.inr ⟨hg.1, hg.2, by simp only [cosine_similarity]; rw [if_pos hg]⟩
    · refine Or.inl ?_
      simp only [cosine_similarity]
      rw [if_neg hg]

/-- C9 witness: with the identity as square root (`id 0 = 0`), the zero
vector `[0]` has zero norm and the similarity against `[1]` is `0`. -/
theorem cosine_similarity_spec_witness : cosine_similarity id [0] [1] = 0 :=
  (cosine_similarity_spec id rfl [0] [1]).1
    (Or.inl (by simp [normSq, dotProduct]))

/-! ### List-level lemmas for the `MERGE` combinators -/

/-- `find?` after a match-or-create step: when `u` rewrites every matching
element to the fixed value `v` (itself matching), the first match of the
result is `v`, whether the step updated (`any p`) or appended. -/
theorem find?_merge_list {α : Type} (p : α → Bool) (u : α → α) (v : α)
    (hv : p v = true) (hu : ∀ x, p x = true → u x = v) (l : List α) :
    (if l.any p then l.map (fun x => if p x then u x else x) else l ++ [v]).find? p
      = some v := by
  by_cases h : l.any p
  · rw [if_pos h]
    induction l with
    | nil => simp at h
    | cons x xs ih =>
      by_cases hx : p x
      · simp only [List.map_cons, if_pos hx]
        rw [List.find?_cons_of_pos _ (by rw [hu x hx]; exact hv), hu x hx]
      · simp only [List.map_cons, if_neg hx]
        rw [List.find?_cons_of_neg _ hx]
        exact ih (by simpa [List.any_cons, hx] using h)
  · rw [if_neg h]
    induction l with
    | nil =>
      rw [List.nil_append]
      exact List.find?_cons_of_pos _ hv
    | cons x xs ih =>
      simp only [List.any_cons, Bool.or_eq_true, not_or] at h
      rw [List.cons_append, List.find?_cons_of_neg _ (by simpa using h.1)]
      exact ih (by simpa using h.2)

/-- `find?` after an update-on-match step whose update preserves the key:
the first match of the updated list is the update of the first match. -/
theorem find?_map_update {α : Type} (p : α → Bool) (u : α → α)
    (hup : ∀ x, p x = true → p (u x) = true) (l : List α) :
    (l.map (fun x => if p x then u x else x)).find? p = (l.find? p).map u := by
  induction l with
  | nil => rfl
  | cons x xs ih =>
    by_cases hx : p x
    · simp only [List.map_cons, if_pos hx]
      rw [List.find?_cons_of_pos _ (hup x hx), List.find?_cons_of_pos _ hx]
      rfl
    · simp only [List.map_cons, if_neg hx]
      rw [List.find?_cons_of_neg _ hx, List.find?_cons_of_neg _ hx]
      exact ih

/-- Appending a fresh matching element to a list with no match makes it the
first match. -/
theorem find?_append_new {α : Type} (p : α → Bool) (v : α) (hv : p v = true)
    (l : List α) (h : l.any p = false) : (l ++ [v]).find? p = some v := by
  induction l with
  | nil =>
    rw [List.nil_append]
    exact List.find?_cons_of_pos _ hv
  | cons x xs ih =>
    simp only [List.any_cons, Bool.or_eq_false_iff] at h
    rw [List.cons_append, List.find?_cons_of_neg _ (by simp [h.1])]
    exact ih h.2

/-! ### Component-preservation and lookup lemmas for the three merges -/

theorem mergeRoom_items (g : GraphState) (n : String) (e : List ℚ) :
    (mergeRoom g n e).items = g.items := by
  unfold mergeRoom; split <;> rfl

theorem mergeRoom_edges (g : GraphState) (n : String) (e : List ℚ) :
    (mergeRoom g n e).edges = g.edges := by
  unfold mergeRoom; split <;> rfl

theorem mergeItem_rooms (g : GraphState) (node : ItemNode) :
    (mergeItem g node).rooms = g.rooms := by
  unfold mergeItem; split <;> rfl

theorem mergeItem_edges (g : GraphState) (node : ItemNode) :
    (mergeItem g node).edges = g.edges := by
  unfold mergeItem; split <;> rfl

theorem mergeEdge_rooms (g : GraphState) (id room now : String) :
    (mergeEdge g id room now).rooms = g.rooms := by
  unfold mergeEdge; split <;> rfl

theorem mergeEdge_items (g : GraphState) (id room now : String) :
    (mergeEdge g id room now).items = g.items := by
  unfold mergeEdge; split <;> rfl

/-- After `mergeRoom`, the room is present and its embedding is the
supplied one — on the created and on the matched branch alike. -/
theorem findRoom_mergeRoom (g : GraphState) (name : String) (emb : List ℚ) :
    findRoom (mergeRoom g name emb) name = some ⟨name, some emb⟩ := by
  unfold findRoom mergeRoom
  rw [apply_ite GraphState.rooms]
  exact find?_merge_list (fun r => r.name == name)
    (fun r => { r with embedding := some emb }) ⟨name, some emb⟩
    (by simp)
    (fun x hx => by
      cases x with
      | mk n e =>
        simp only [beq_iff_eq] at hx
        subst hx
        rfl)
    g.rooms

/-- After `mergeItem`, the stored item under the node's key is exactly the
supplied node — every property, `quantity` included, is overwritten. -/
theorem findItem_mergeItem (g : GraphState) (node : ItemNode) :
    findItem (mergeItem g node) node.item_id = some node := by
  unfold findItem mergeItem
  rw [apply_ite GraphState.items]
  exact find?_merge_list (fun i => i.item_id == node.item_id)
    (fun _ => node) node (by simp) (fun _ _ => rfl) g.items

/-- After `mergeEdge`, the edge is present, its `last_updated` is the
transaction time, and its `since` is whatever it was before (never set:
`none` for a created edge, the previous value for a matched one). -/
theorem findEdge_mergeEdge (g : GraphState) (id room now : String) :
    findEdge (mergeEdge g id room now) id room =
      some ⟨id, room, (findEdge g id room).bind LocatedInEdge.since, some now⟩ := by
  unfold findEdge mergeEdge
  rw [apply_ite GraphState.edges]
  by_cases h : g.edges.any (fun e => e.item_id == id && e.room_name == room)
  · rw [if_pos h]
    dsimp only
    rw [find?_map_update (fun e : LocatedInEdge => e.item_id == id && e.room_name == room)
      (fun e : LocatedInEdge => { e with last_updated := some now }) (fun x hx => hx)]
    obtain ⟨e0, he0⟩ : ∃ e0,
        g.edges.find? (fun e => e.item_id == id && e.room_name == room)
          = some e0 := by
      rcases List.any_eq_true.mp h with ⟨e0, he0, hpe0⟩
      exact Option.isSome_iff_exists.mp (List.find?_isSome.mpr ⟨e0, he0, hpe0⟩)
    have hp := List.find?_some he0
    rw [he0]
    cases e0 with
    | mk i r s lu =>
      simp only [Bool.and_eq_true, beq_iff_eq] at hp
      simp [hp.1, hp.2, Option.bind]
  · rw [if_neg h]
    dsimp only
    rw [find?_append_new _ _ (by simp) _ (by simpa using h)]
    have hnone : g.edges.find? (fun e => e.item_id == id && e.room_name == room)
        = none := by
      rw [List.find?_eq_none]
      intro x hx hpx
      exact absurd (List.any_eq_true.mpr ⟨x, hx, hpx⟩) h
    rw [hnone]
    rfl

/-! ### Concrete observations used by the upsert counterexamples -/

/-- A fully-populated observation: item `"X"` seen in the kitchen with
quantity delta 1 and room embedding `[1]`. -/
def obsX1 : ItemData :=
  { item_id := "X", name := "lamp", sku := "S", price := 10, quantity := 1,
    room := "kitchen", add_date := "2024-01-05", room_embedding := some [1],
    confidence := some (9/10), embedding := some [2],
    purchase_date := some none, description := some "" }

/-- The same observation with room embedding `[2]`. -/
def obsX2 : ItemData := { obsX1 with room_embedding := some [2] }

/-- C1 counterexample: upserting `item_id = "X"` with quantity delta 1 twice
in sequence leaves the stored quantity at 1, not the claimed 2 — the second
`SET i.quantity = $quantity` overwrites rather than accumulates. -/
theorem item_quantity_accumulation_cex :
    (findItem (create_item true obsX1 "T2"
        (create_item true obsX1 "T1" GraphState.empty).state).state "X").map
      ItemNode.quantity = some 1 ∧
    (some (1 : Int)) ≠ some 2 := by
  exact ⟨rfl, by decide⟩

/-- C1 amended: an upsert whose `item_data` carries all optional keys
overwrites every stored property of the matched (or created) item with the
newly supplied values — `quantity` included, which becomes the supplied
delta rather than the previous quantity plus the delta. -/
theorem create_item_last_write_wins (d : ItemData) (g : GraphState) (now : String)
    (remb emb : List ℚ) (conf : ℚ) (pd : Option String)
    (hre : d.room_embedding = some remb) (hc : d.confidence = some conf)
    (he : d.embedding = some emb) (hp : d.purchase_date = some pd) :
    findItem (create_item true d now g).state d.item_id =
      some { item_id := d.item_id, name := d.name, sku := d.sku, price := d.price,
             quantity := d.quantity, confidence := conf, embedding := some emb,
             description := d.description.getD "", add_date := d.add_date,
             purchase_date := pd, updated_at := now } := by
  simp only [create_item, hre, hc, he, hp, Bool.not_true, Bool.false_eq_true,
    if_false]
  rw [show findItem = fun g id => g.items.find? (fun i => i.item_id == id) from rfl]
  simp only [mergeEdge_items]
  exact findItem_mergeItem (mergeRoom g d.room remb)
    { item_id := d.item_id, name := d.name, sku := d.sku, price := d.price,
      quantity := d.quantity, confidence := conf, embedding := some emb,
      description := d.description.getD "", add_date := d.add_date,
      purchase_date := pd, updated_at := now }

/-- C1 witness: a single upsert of `obsX1` stores exactly the supplied
values. -/
theorem create_item_last_write_wins_witness :
    findItem (create_item true obsX1 "T1" GraphState.empty).state "X" =
      some { item_id := "X", name := "lamp", sku := "S", price := 10, quantity := 1,
             confidence := 9/10, embedding := some [2], description := "",
             add_date := "2024-01-05", purchase_date := none, updated_at := "T1" } :=
  create_item_last_write_wins obsX1 GraphState.empty "T1" [1] [2] (9/10) none
    rfl rfl rfl rfl

/-- C2 counterexample: creating Room `"kitchen"` with embedding `[1]` and
then upserting another observation into `"kitchen"` that supplies embedding
`[2]` leaves the room embedding at `[2]`, not the claimed sticky `[1]` —
the `SET r.embedding` clause fires on match as well as on create. -/
theorem room_embedding_sticky_cex :
    (findRoom (create_item true obsX2 "T2"
        (create_item true obsX1 "T1" GraphState.empty).state).state "kitchen").map
      RoomNode.embedding = some (some [2]) ∧
    some (some [(2 : ℚ)]) ≠ some (some [(1 : ℚ)]) := by
  exact ⟨rfl, by decide⟩

/-- C2 amended: every upsert that supplies a `room_embedding` overwrites the
matched-or-created room's embedding with the supplied value, whatever was
stored before. -/
theorem create_item_room_embedding_overwrite (d : ItemData) (g : GraphState)
    (now : String) (remb : List ℚ) (hre : d.room_embedding = some remb) :
    findRoom (create_item true d now g).state d.room = some ⟨d.room, some remb⟩ := by
  simp only [create_item, hre, Bool.not_true, Bool.false_eq_true, if_false]
  cases hc : d.confidence with
  | none => exact findRoom_mergeRoom g d.room remb
  | some conf =>
    cases he : d.embedding with
    | none => exact findRoom_mergeRoom g d.room remb
    | some emb =>
      cases hp : d.purchase_date with
      | none => exact findRoom_mergeRoom g d.room remb
      | some pd =>
        show findRoom (mergeEdge (mergeItem (mergeRoom g d.room remb) _) _ _ _)
            d.room = _
        rw [show findRoom = fun g n => g.rooms.find? (fun r => r.name == n) from rfl]
        simp only [mergeEdge_rooms, mergeItem_rooms]
        exact findRoom_mergeRoom g d.room remb

/-- C2 witness: a single upsert of `obsX2` on the empty store sets the
kitchen embedding to `[2]`. -/
theorem create_item_room_embedding_overwrite_witness :
    findRoom (create_item true obsX2 "T2" GraphState.empty).state "kitchen" =
      some ⟨"kitchen", some [2]⟩ :=
  create_item_room_embedding_overwrite obsX2 GraphState.empty "T2" [2] rfl

/-- C6 counterexample: the `LOCATED_IN` edge created by a first observation
carries no `since` attribute at all (`none`), not the claimed observation
date `"2024-01-05"` — the Cypher only ever sets `last_updated`. -/
theorem located_in_since_cex :
    (findEdge (create_item true obsX1 "T1" GraphState.empty).state "X" "kitchen").map
      LocatedInEdge.since = some none ∧
    (some (none : Option String)) ≠ some (some "2024-01-05") := by
  exact ⟨rfl, by decide⟩

/-- C6 amended: a fully-populated upsert match-or-creates the `LOCATED_IN`
edge and sets its `last_updated` to the transaction timestamp on both
branches; `since` is never written — it stays absent on creation and keeps
its previous value on match. -/
theorem create_item_edge_timestamps (d : ItemData) (g : GraphState) (now : String)
    (remb emb : List ℚ) (conf : ℚ) (pd : Option String)
    (hre : d.room_embedding = some remb) (hc : d.confidence = some conf)
    (he : d.embedding = some emb) (hp : d.purchase_date = some pd) :
    findEdge (create_item true d now g).state d.item_id d.room =
      some ⟨d.item_id, d.room,
        (findEdge g d.item_id d.room).bind LocatedInEdge.since, some now⟩ := by
  simp only [create_item, hre, hc, he, hp, Bool.not_true, Bool.false_eq_true,
    if_false]
  rw [findEdge_mergeEdge]
  rw [show findEdge = fun g i r =>
    g.edges.find? (fun e => e.item_id == i && e.room_name == r) from rfl]
  simp only [mergeItem_edges, mergeRoom_edges]

/-- C6 witness: on the empty store the created edge has `last_updated = "T1"`
and no `since`. -/
theorem create_item_edge_timestamps_witness :
    findEdge (create_item true obsX1 "T1" GraphState.empty).state "X" "kitchen" =
      some ⟨"X", "kitchen", none, some "T1"⟩ :=
  create_item_edge_timestamps obsX1 GraphState.empty "T1" [1] [2] (9/10) none
    rfl rfl rfl rfl

/-- An observation that supplies everything except the `confidence` key. -/
def obsNoConfidence : ItemData := { obsX1 with confidence := none }

/-- C10 counterexample: an observation record that omits only `confidence`
(one of the four keys named by the claim) raises `KeyError` *after* the
room write has already executed, so the KeyError does not precede every
write. -/
theorem keyerror_before_write_cex :
    (create_item true obsNoConfidence "T1" GraphState.empty).keyError
        = some "confidence" ∧
    (create_item true obsNoConfidence "T1" GraphState.empty).writes
        = [WriteOp.roomWrite] ∧
    ([WriteOp.roomWrite] : List WriteOp) ≠ [] := by
  exact ⟨rfl, rfl, by decide⟩

/-- C10 amended: every receipt-path record omits `room_embedding` (it does
supply `purchase_date`), so `create_item` raises `KeyError` on
`"room_embedding"` before performing any write and the line item is never
persisted; a record missing only `confidence`, `embedding` or
`purchase_date` instead fails only after the room write. -/
theorem receipt_item_never_persisted (qb : QbResult)
    (add_date purchase_date now : String) (g : GraphState) :
    create_item true (mkReceiptItemData qb add_date purchase_date) now g =
      ⟨g, [], some "room_embedding"⟩ := rfl

/-- C5 counterexample: with a graph write that always raises, `upload_file`'s
storage loop attempts only the first of two detections: the exception
propagates (there is no per-detection `try/except` in `upload_file`) and
the sibling detection's upsert is never attempted. -/
theorem upload_sibling_abort_cex :
    (storeDetectionsLoop (fun _ => Except.error "ServiceUnavailable")
        "kitchen" [1] "TS" "2024-01-05"
        [⟨"chair", 9/10, [1]⟩, ⟨"table", 8/10, [2]⟩]).1.map ItemData.name
      = ["chair"] ∧
    (storeDetectionsLoop (fun _ => Except.error "ServiceUnavailable")
        "kitchen" [1] "TS" "2024-01-05"
        [⟨"chair", 9/10, [1]⟩, ⟨"table", 8/10, [2]⟩]).2
      = some "ServiceUnavailable" ∧
    (["chair"] : List String) ≠ ["chair", "table"] := by
  exact ⟨rfl, rfl, by decide⟩

/-- C5 amended: per-item failure isolation holds on the receipt path —
`upload_receipt` attempts every line item no matter which graph writes
fail — but not on the photo path: in `upload_file` a raising graph write
for one detection ends the loop with exactly the prefix up to the failing
detection attempted, and a successful write continues the loop with the
rest. -/
theorem detection_loop_failure_semantics :
    (∀ (runCreate : ItemData → Except String Unit) (add_date : String)
        (items : List (QbResult × String)),
      (receiptLoop runCreate add_date items).length = items.length) ∧
    (∀ (runCreate : ItemData → Except String Unit) (room_type : String)
        (room_embedding : List ℚ) (timestamp add_date : String)
        (obj : DetectedObject) (rest : List DetectedObject) (e : String),
      runCreate (mkDetectionItemData obj room_type room_embedding timestamp add_date)
          = Except.error e →
      storeDetectionsLoop runCreate room_type room_embedding timestamp add_date
          (obj :: rest) =
        ([mkDetectionItemData obj room_type room_embedding timestamp add_date],
          some e)) ∧
    (∀ (runCreate : ItemData → Except String Unit) (room_type : String)
        (room_embedding : List ℚ) (timestamp add_date : String)
        (obj : DetectedObject) (rest : List DetectedObject),
      runCreate (mkDetectionItemData obj room_type room_embedding timestamp add_date)
          = Except.ok () →
      storeDetectionsLoop runCreate room_type room_embedding timestamp add_date
          (obj :: rest) =
        (mkDetectionItemData obj room_type room_embedding timestamp add_date ::
            (storeDetectionsLoop runCreate room_type room_embedding timestamp
              add_date rest).1,
          (storeDetectionsLoop runCreate room_type room_embedding timestamp
            add_date rest).2)) := by
  refine ⟨?_, ?_, ?_⟩
  · intro runCreate add_date items
    induction items with
    | nil => rfl
    | cons hd tl ih =>
      cases hd with
      | mk qb pd => simp [receiptLoop, ih]
  · intro runCreate room_type room_embedding timestamp add_date obj rest e h
    simp [storeDetectionsLoop, h]
  · intro runCreate room_type room_embedding timestamp add_date obj rest h
    simp [storeDetectionsLoop, h]

/-- C5 witness: concrete instantiations of the two guarded clauses — a
failing first write ends a two-detection loop after one attempt, and an
always-succeeding write attempts both. -/
theorem detection_loop_failure_semantics_witness :
    storeDetectionsLoop (fun _ => Except.error "E") "kitchen" [1] "TS" "D"
        [⟨"chair", 9/10, [1]⟩, ⟨"table", 8/10, [2]⟩] =
      ([mkDetectionItemData ⟨"chair", 9/10, [1]⟩ "kitchen" [1] "TS" "D"],
        some "E") ∧
    storeDetectionsLoop (fun _ => Except.ok ()) "kitchen" [1] "TS" "D"
        [⟨"chair", 9/10, [1]⟩] =
      (mkDetectionItemData ⟨"chair", 9/10, [1]⟩ "kitchen" [1] "TS" "D" ::
          (storeDetectionsLoop (fun _ => Except.ok ()) "kitchen" [1] "TS" "D" []).1,
        (storeDetectionsLoop (fun _ => Except.ok ()) "kitchen" [1] "TS" "D" []).2) :=
  ⟨detection_loop_failure_semantics.2.1 (fun _ => Except.error "E") "kitchen" [1]
      "TS" "D" ⟨"chair", 9/10, [1]⟩ [⟨"table", 8/10, [2]⟩] "E" rfl,
    detection_loop_failure_semantics.2.2 (fun _ => Except.ok ()) "kitchen" [1]
      "TS" "D" ⟨"chair", 9/10, [1]⟩ [] rfl⟩

/-- C3: for every query embedding, catalog record list and limit,
`search_similar_items` returns at most `limit` results, ordered descending
by the blended score `0.7 * itemSim + 0.3 * roomSim`, and no result has a
blended score ≤ 0.2. -/
theorem search_similar_items_spec (sqrt : ℚ → ℚ) (query_embedding : List ℚ)
    (rows : List DbRow) (limit : Nat) :
    (search_similar_items sqrt query_embedding rows limit).length ≤ limit ∧
    List.Sorted (fun a b : RankedItem => b.similarity ≤ a.similarity)
      (search_similar_items sqrt query_embedding rows limit) ∧
    ∀ x ∈ search_similar_items sqrt query_embedding rows limit,
      1/5 < x.similarity := by
  haveI htot : IsTotal (DbRow × ℚ) (fun a b => b.2 ≤ a.2) :=
    ⟨fun a b => le_total b.2 a.2⟩
  haveI htrans : IsTrans (DbRow × ℚ) (fun a b => b.2 ≤ a.2) :=
    ⟨fun _ _ _ hab hbc => le_trans hbc hab⟩
  refine ⟨?_, ?_, ?_⟩
  · simp only [search_similar_items, List.length_map]
    exact le_trans (List.length_filter_le _ _) (List.length_take_le _ _)
  · simp only [search_similar_items, List.Sorted]
    rw [List.pairwise_map]
    exact List.Pairwise.sublist
      ((List.filter_sublist _).trans (List.take_sublist _ _))
      (List.sorted_insertionSort _ _)
  · intro x hx
    simp only [search_similar_items, List.mem_map, List.mem_filter,
      decide_eq_true_eq] at hx
    obtain ⟨p, ⟨_, hp2⟩, rfl⟩ := hx
    exact hp2

/-- A catalog record: item `"a"`, embedding `[1]`, no room embedding. -/
def rowNameA : DbRow := ⟨"a", none, some 1, some 1, "kitchen", some [1], none⟩

/-- A catalog record: item `"b"`, same embedding `[1]` (equal score). -/
def rowNameB : DbRow := ⟨"b", none, some 2, some 1, "kitchen", some [1], none⟩

/-- C7 counterexample: two catalogs holding the same records in a different
database row order — with equal blended scores — yield outputs in different
orders, so the order of tied results is not determined by the stored items
(and a fortiori not by `item_id`, which the search query does not even
return): ties follow the database row order through the stable sort. -/
theorem search_tie_order_cex :
    (search_similar_items id [1] [rowNameA, rowNameB] 5).map RankedItem.name
      = ["a", "b"] ∧
    (search_similar_items id [1] [rowNameB, rowNameA] 5).map RankedItem.name
      = ["b", "a"] ∧
    (["a", "b"] : List String) ≠ ["b", "a"] ∧
    [rowNameA, rowNameB].Perm [rowNameB, rowNameA] := by
  refine ⟨?_, ?_, by decide, List.Perm.swap rowNameB rowNameA []⟩ <;>
    norm_num [search_similar_items, rowSimilarity, rowNameA, rowNameB,
      cosine_similarity, normSq, dotProduct, List.insertionSort, List.orderedInsert]

/-- Insertion step of the stable descending sort, restricted to one score
class: `orderedInsert` places a scored record in front of exactly the
records of equal score (records it skips have strictly greater scores), so
filtering the insertion result to a fixed score `s` either prepends the
record (when its score is `s`) or returns the untouched score-`s`
records. -/
theorem orderedInsert_filter_score (s : ℚ) (x : DbRow × ℚ) :
    ∀ m : List (DbRow × ℚ),
      (List.orderedInsert (fun a b => b.2 ≤ a.2) x m).filter (fun p => p.2 == s)
        = if x.2 = s then x :: m.filter (fun p => p.2 == s)
          else m.filter (fun p => p.2 == s)
  | [] => by
    by_cases hx : x.2 = s
    · rw [if_pos hx]
      simp [hx]
    · rw [if_neg hx]
      simp [hx]
  | y :: ys => by
    by_cases hr : y.2 ≤ x.2
    · rw [List.orderedInsert, if_pos hr]
      by_cases hx : x.2 = s
      · rw [if_pos hx, List.filter_cons_of_pos (by simp [hx])]
      · rw [if_neg hx, List.filter_cons_of_neg (by simp [hx])]
    · rw [List.orderedInsert, if_neg hr]
      push_neg at hr
      by_cases hy : y.2 = s
      · have hx : x.2 ≠ s := by
          intro h
          rw [h, hy] at hr
          exact absurd hr (lt_irrefl s)
        rw [if_neg hx, List.filter_cons_of_pos (by simp [hy]),
          orderedInsert_filter_score s x ys, if_neg hx,
          List.filter_cons_of_pos (by simp [hy])]
      · rw [List.filter_cons_of_neg (by simp [hy]),
          orderedInsert_filter_score s x ys, List.filter_cons_of_neg (by simp [hy])]

/-- Stability of the scored sort, one score class at a time: sorting does
not change the sequence of records having any fixed score `s`. -/
theorem insertionSort_filter_score (s : ℚ) :
    ∀ l : List (DbRow × ℚ),
      (List.insertionSort (fun a b => b.2 ≤ a.2) l).filter (fun p => p.2 == s)
        = l.filter (fun p => p.2 == s)
  | [] => rfl
  | x :: xs => by
    rw [List.insertionSort, orderedInsert_filter_score s x _,
      insertionSort_filter_score s xs]
    by_cases hx : x.2 = s
    · rw [if_pos hx, List.filter_cons_of_pos (by simp [hx])]
    · rw [if_neg hx, List.filter_cons_of_neg (by simp [hx])]

/-- For a score `s` above the threshold, restricting to the records that
pass the `> 0.2` filter does not change the score-`s` records: each one
passes the threshold filter anyway. -/
theorem filter_threshold_score (s : ℚ) (hs : 1/5 < s) (l : List (DbRow × ℚ)) :
    (l.filter (fun p => 1/5 < p.2)).filter (fun p => p.2 == s)
      = l.filter (fun p => p.2 == s) := by
  induction l with
  | nil => rfl
  | cons x xs ih =>
    by_cases hx : x.2 = s
    · have hthr : (1 : ℚ)/5 < x.2 := by rw [hx]; exact hs
      rw [List.filter_cons_of_pos (by simpa using hthr),
        List.filter_cons_of_pos (by simp [hx]),
        List.filter_cons_of_pos (by simp [hx]), ih]
    · by_cases hthr : (1 : ℚ)/5 < x.2
      · rw [List.filter_cons_of_pos (by simpa using hthr),
          List.filter_cons_of_neg (by simp [hx]), ih,
          List.filter_cons_of_neg (by simp [hx])]
      · rw [List.filter_cons_of_neg (by simpa using hthr), ih,
          List.filter_cons_of_neg (by simp [hx])]

/-- C7 amended: `search_similar_items` breaks blended-score ties by the
order the database returned the records, for every catalog: for any record
list, query, limit and score value `s` above the 0.2 threshold, the output
entries whose blended score is `s` are an initial segment — in database row
order — of all the database records whose blended score is `s`.  `item_id`
plays no role (the query does not even return it). -/
theorem search_tie_row_order (sqrt : ℚ → ℚ) (q : List ℚ) (rows : List DbRow)
    (limit : Nat) (s : ℚ) (hs : 1/5 < s) :
    ∃ n, (search_similar_items sqrt q rows limit).filter
        (fun x => x.similarity == s) =
      ((rows.filter (fun r => rowSimilarity sqrt q r == s)).map
        (fun r => (⟨r.name, r.description.getD "", r.price, r.quantity, r.room,
            rowSimilarity sqrt q r⟩ : RankedItem))).take n := by
  simp only [search_similar_items]
  rw [List.filter_map]
  rw [show ((fun x : RankedItem => x.similarity == s) ∘
      (fun p : DbRow × ℚ =>
        (⟨p.1.name, p.1.description.getD "", p.1.price, p.1.quantity, p.1.room,
            p.2⟩ : RankedItem))) = fun p : DbRow × ℚ => p.2 == s
    from rfl]
  rw [filter_threshold_score s hs]
  have hsplit :
      (List.insertionSort (fun a b => b.2 ≤ a.2)
          (rows.map fun r => (r, rowSimilarity sqrt q r))).filter
        (fun p => p.2 == s) =
      ((List.insertionSort (fun a b => b.2 ≤ a.2)
          (rows.map fun r => (r, rowSimilarity sqrt q r))).take limit).filter
        (fun p => p.2 == s) ++
      ((List.insertionSort (fun a b => b.2 ≤ a.2)
          (rows.map fun r => (r, rowSimilarity sqrt q r))).drop limit).filter
        (fun p => p.2 == s) := by
    rw [← List.filter_append, List.take_append_drop]
  have hpre :
      ((List.insertionSort (fun a b => b.2 ≤ a.2)
          (rows.map fun r => (r, rowSimilarity sqrt q r))).take limit).filter
        (fun p => p.2 == s) =
      ((List.insertionSort (fun a b => b.2 ≤ a.2)
          (rows.map fun r => (r, rowSimilarity sqrt q r))).filter
        (fun p => p.2 == s)).take
        ((((List.insertionSort (fun a b => b.2 ≤ a.2)
            (rows.map fun r => (r, rowSimilarity sqrt q r))).take limit).filter
          (fun p => p.2 == s)).length) := by
    rw [hsplit, List.take_left]
  rw [hpre, insertionSort_filter_score s, List.filter_map, List.map_take,
    List.map_map]
  exact ⟨_, rfl⟩

/-- C7 witness: for the concrete catalog `[rowNameA, rowNameB]` (both rows
scoring 0.7 against query `[1]`), the tied results are an initial segment
of the tied rows in database order. -/
theorem search_tie_row_order_witness :
    ∃ n, (search_similar_items id [1] [rowNameA, rowNameB] 5).filter
        (fun x => x.similarity == (7/10 : ℚ)) =
      (([rowNameA, rowNameB].filter
          (fun r => rowSimilarity id [1] r == (7/10 : ℚ))).map
        (fun r => (⟨r.name, r.description.getD "", r.price, r.quantity, r.room,
            rowSimilarity id [1] r⟩ : RankedItem))).take n :=
  search_tie_row_order id [1] [rowNameA, rowNameB] 5 (7/10) (by norm_num)

/-! ### Lemmas about the greedy suppression loop -/

/-- The kept detections form a sublist of the pool. -/
theorem nmsLoop_sublist (thr : ℚ) (l : List Detection) :
    (nmsLoop thr l).Sublist l := by
  induction l using nmsLoop.induct thr with
  | case1 => simp [nmsLoop]
  | case2 current rest ih =>
    rw [nmsLoop]
    exact (ih.trans (List.filter_sublist _)).cons_cons current

/-- No kept detection is followed by a same-class kept detection that it
would suppress: IoU of a kept pair of equal class is below the threshold. -/
theorem nmsLoop_pairwise (thr : ℚ) (l : List Detection) :
    (nmsLoop thr l).Pairwise
      (fun k d => k.classLabel = d.classLabel → k.iou d < thr) := by
  induction l using nmsLoop.induct thr with
  | case1 => simp [nmsLoop]
  | case2 current rest ih =>
    rw [nmsLoop]
    refine List.Pairwise.cons ?_ ih
    intro d hd hcl
    have hdf := (nmsLoop_sublist thr _).subset hd
    have hp := of_decide_eq_true (List.mem_filter.mp hdf).2
    rcases hp with hne | hlt
    · exact absurd hcl.symm hne
    · exact hlt

/-- Every pool detection is either kept, or has a kept same-class suppressor
with IoU at or above the threshold. -/
theorem nmsLoop_complete (thr : ℚ) (l : List Detection) :
    ∀ d ∈ l, d ∈ nmsLoop thr l ∨
      ∃ k ∈ nmsLoop thr l, k.classLabel = d.classLabel ∧ thr ≤ k.iou d := by
  induction l using nmsLoop.induct thr with
  | case1 => intro d hd; simp at hd
  | case2 current rest ih =>
    intro d hd
    rw [nmsLoop]
    rcases List.mem_cons.mp hd with rfl | hdrest
    · exact Or.inl (List.mem_cons_self _ _)
    · by_cases hp : d.classLabel ≠ current.classLabel ∨ current.iou d < thr
      · have hdf : d ∈ rest.filter (fun obj =>
            obj.classLabel ≠ current.classLabel ∨ current.iou obj < thr) :=
          List.mem_filter.mpr ⟨hdrest, decide_eq_true hp⟩
        rcases ih d hdf with h | ⟨k, hk, hkc, hki⟩
        · exact Or.inl (List.mem_cons_of_mem _ h)
        · exact Or.inr ⟨k, List.mem_cons_of_mem _ hk, hkc, hki⟩
      · push_neg at hp
        exact Or.inr ⟨current, List.mem_cons_self _ _, hp.1.symm, hp.2⟩

/-- C4: `apply_nms` returns a subset of the input that is sorted descending
by confidence (the sort is stable, so ties keep input order); no kept
detection precedes a same-class kept detection within the IoU threshold
(the greedy head-keep/remove discipline), and every dropped detection has a
kept suppressor of the *same* class with IoU ≥ threshold — detections of
different classes never suppress one another. -/
theorem apply_nms_spec (objects : List Detection) (thr : ℚ) :
    (∀ d ∈ apply_nms objects thr, d ∈ objects) ∧
    List.Sorted (fun a b : Detection => b.confidence ≤ a.confidence)
      (apply_nms objects thr) ∧
    (apply_nms objects thr).Pairwise
      (fun k d => k.classLabel = d.classLabel → k.iou d < thr) ∧
    ∀ d ∈ objects, d ∈ apply_nms objects thr ∨
      ∃ k ∈ apply_nms objects thr, k.classLabel = d.classLabel ∧ thr ≤ k.iou d := by
  haveI : IsTotal Detection (fun a b => b.confidence ≤ a.confidence) :=
    ⟨fun a b => le_total _ _⟩
  haveI : IsTrans Detection (fun a b => b.confidence ≤ a.confidence) :=
    ⟨fun _ _ _ h1 h2 => le_trans h2 h1⟩
  refine ⟨?_, ?_, ?_, ?_⟩
  · intro d hd
    exact (List.mem_insertionSort _).mp ((nmsLoop_sublist thr _).subset hd)
  · exact List.Pairwise.sublist (nmsLoop_sublist thr _)
      (List.sorted_insertionSort _ _)
  · exact nmsLoop_pairwise thr _
  · intro d hd
    exact nmsLoop_complete thr _ d ((List.mem_insertionSort _).mpr hd)

/-- C3 witness: on a concrete one-record catalog the bound and the
threshold clause hold. -/
theorem search_similar_items_spec_witness :
    (search_similar_items id [1] [rowNameA] 5).length ≤ 5 ∧
    ∀ x ∈ search_similar_items id [1] [rowNameA] 5, 1/5 < x.similarity :=
  ⟨(search_similar_items_spec id [1] [rowNameA] 5).1,
   (search_similar_items_spec id [1] [rowNameA] 5).2.2⟩

/-- C4 witness: for the spec's overlapping-chairs example, the
highest-confidence chair is kept or has a kept same-class suppressor. -/
theorem apply_nms_spec_witness :
    (⟨"chair", 9/10, ⟨0, 0, 1, 1⟩⟩ : Detection) ∈
        apply_nms [⟨"chair", 9/10, ⟨0, 0, 1, 1⟩⟩, ⟨"chair", 6/10, ⟨0, 0, 1, 4/5⟩⟩]
          (1/2) ∨
      ∃ k ∈ apply_nms [⟨"chair", 9/10, ⟨0, 0, 1, 1⟩⟩,
          ⟨"chair", 6/10, ⟨0, 0, 1, 4/5⟩⟩] (1/2),
        k.classLabel = ("chair" : String) ∧
          (1/2 : ℚ) ≤ k.iou ⟨"chair", 9/10, ⟨0, 0, 1, 1⟩⟩ :=
  (apply_nms_spec [⟨"chair", 9/10, ⟨0, 0, 1, 1⟩⟩,
      ⟨"chair", 6/10, ⟨0, 0, 1, 4/5⟩⟩] (1/2)).2.2.2
    ⟨"chair", 9/10, ⟨0, 0, 1, 1⟩⟩ (List.mem_cons_self _ _)

/-- C10 witness: a concrete receipt line item is dropped with
`KeyError: room_embedding` and the store is untouched. -/
theorem receipt_item_never_persisted_witness :
    create_item true
        (mkReceiptItemData ⟨"Q1", "lamp", "SKU1", 10, 1⟩ "2024-01-05" "2024-01-02")
        "T1" GraphState.empty =
      ⟨GraphState.empty, [], some "room_embedding"⟩ :=
  receipt_item_never_persisted ⟨"Q1", "lamp", "SKU1", 10, 1⟩ "2024-01-05"
    "2024-01-02" "T1" GraphState.empty
